import Mathlib

/-!
Verification development for the flowers-for-molly garden core:
the infinite-wraparound parallax viewport engine
(`InfiniteParallaxGarden.tsx`), the biome layer compositor
(`buildLayersFromBiome` in `garden/biomes.ts`), the deterministic
hash/RNG pair (`hash32` / `rng01` in `StoryDotsOverlay.tsx`,
`fnv1a32` in `scripts/importStories.ts`, `makeRng` in
`GardenArc.tsx`) and the story-dot placement of the parallax-aware
`StoryDotsOverlay`.

JavaScript numbers are modelled as rationals (`ℚ`); all the scroll
and layout arithmetic of the source stays exact on the inputs the
claims quantify over.  32-bit integer state (hash, LCG) is modelled
as `Nat` with explicit reduction modulo `2 ^ 32`, matching the
`>>> 0` coercions of the source.
-/

namespace FFM

/-- Two to the 32nd, the modulus of every `>>> 0` coercion in the source. -/
def U32 : Nat := 4294967296

/-- Truncation toward zero, the rounding JavaScript's `%` operator uses. -/
def jsTrunc (q : ℚ) : ℤ := if 0 ≤ q then ⌊q⌋ else -⌊-q⌋

/-- JavaScript remainder `a % b`: `a - b * trunc (a / b)`.  It carries the
sign of `a`, unlike mathematical `mod`. -/
def jsMod (a b : ℚ) : ℚ := a - b * (jsTrunc (a / b) : ℚ)

/-- The `clamp` helper of `InfiniteParallaxGarden.tsx`:
`Math.max(a, Math.min(b, v))`. -/
def clamp (v a b : ℚ) : ℚ := max a (min b v)

/-- The per-layer horizontal parallax shift of `renderLayerSegment`:
`-localX * (1 - clamp(parallax, 0, 1))`. -/
def parallaxShift (lx parallax : ℚ) : ℚ := -lx * (1 - clamp parallax 0 1)

/-- The `localX` memo of `InfiniteParallaxGarden`: with
`middleStart = segmentWidth`, `x = (scrollLeft - middleStart) % segmentWidth`
and a conditional `+ segmentWidth` when the JS remainder came out negative. -/
def localX (scrollLeft s : ℚ) : ℚ :=
  let x := jsMod (scrollLeft - s) s
  if x < 0 then x + s else x

/-- The wrap snap of `handleScroll`: jump right by one segment below
`middleStart * 0.5`, jump left by one segment above `middleStart * 1.5`. -/
def wrapSnap (raw s : ℚ) : ℚ :=
  if raw < s / 2 then raw + s
  else if raw > s * (3 / 2) then raw - s
  else raw

/-- One engine transition: a wheel/scroll delta lands on `scrollLeft`
and `handleScroll` then applies the wrap snap. -/
def applyScrollDelta (s raw delta : ℚ) : ℚ := wrapSnap (raw + delta) s

/-- The mount-time initialisation of the engine:
`scrollLeft = middleStart + (initialOffsetX % segmentWidth)`. -/
def engineInit (s initOff : ℚ) : ℚ := s + jsMod initOff s

/-- The raw scroll position after a sequence of scroll deltas has been
applied to a freshly mounted engine. -/
def engineRun (s initOff : ℚ) (deltas : List ℚ) : ℚ :=
  deltas.foldl (applyScrollDelta s) (engineInit s initOff)

/-- The `offsetX` field `notifyViewport` actually emits:
`(scrollLeft - middleStart + localX) % segmentWidth`. -/
def emittedOffsetX (scrollLeft s : ℚ) : ℚ :=
  jsMod (scrollLeft - s + localX scrollLeft s) s

section JsModFacts

theorem jsMod_sub_int (a b : ℚ) : ∃ k : ℤ, jsMod a b = a - b * k :=
  ⟨jsTrunc (a / b), rfl⟩

theorem jsMod_abs_lt (a b : ℚ) (hb : 0 < b) : -b < jsMod a b ∧ jsMod a b < b := by
  have hb0 : b ≠ 0 := ne_of_gt hb
  unfold jsMod jsTrunc
  rcases le_or_lt 0 (a / b) with h | h
  · rw [if_pos h]
    have h1 : (⌊a / b⌋ : ℚ) ≤ a / b := Int.floor_le _
    have h2 : a / b < ⌊a / b⌋ + 1 := Int.lt_floor_add_one _
    constructor
    · nlinarith [mul_le_mul_of_nonneg_left h1 (le_of_lt hb),
        (div_mul_cancel₀ a hb0 : a / b * b = a)]
    · nlinarith [mul_lt_mul_of_pos_left h2 hb,
        (div_mul_cancel₀ a hb0 : a / b * b = a)]
  · rw [if_neg (not_le.mpr h)]
    have h1 : (⌊-(a / b)⌋ : ℚ) ≤ -(a / b) := Int.floor_le _
    have h2 : -(a / b) < ⌊-(a / b)⌋ + 1 := Int.lt_floor_add_one _
    push_cast
    constructor
    · nlinarith [mul_le_mul_of_nonneg_left h1 (le_of_lt hb),
        (div_mul_cancel₀ a hb0 : a / b * b = a)]
    · nlinarith [mul_lt_mul_of_pos_left h2 hb,
        (div_mul_cancel₀ a hb0 : a / b * b = a)]

theorem localX_nonneg_lt (raw s : ℚ) (hs : 0 < s) :
    0 ≤ localX raw s ∧ localX raw s < s := by
  unfold localX
  obtain ⟨hlo, hhi⟩ := jsMod_abs_lt (raw - s) s hs
  rcases lt_or_le (jsMod (raw - s) s) 0 with h | h
  · rw [if_pos h]
    constructor <;> linarith
  · rw [if_neg (not_lt.mpr h)]
    exact ⟨h, hhi⟩

theorem localX_sub_int (raw s : ℚ) : ∃ k : ℤ, localX raw s = raw - s * k := by
  unfold localX
  obtain ⟨k, hk⟩ := jsMod_sub_int (raw - s) s
  rcases lt_or_le (jsMod (raw - s) s) 0 with h | h
  · refine ⟨k, ?_⟩
    rw [if_pos h, hk]
    ring
  · refine ⟨k + 1, ?_⟩
    rw [if_neg (not_lt.mpr h), hk]
    push_cast
    ring

theorem localX_eq_of_period (r1 r2 s : ℚ) (hs : 0 < s) (k : ℤ)
    (hk : r1 - r2 = s * k) (h1 : 0 ≤ r1) (h1b : r1 < s) (h2 : 0 ≤ r2)
    (h2b : r2 < s) : r1 = r2 := by
  have habs : |r1 - r2| < s := abs_lt.mpr ⟨by linarith, by linarith⟩
  rw [hk] at habs
  rw [abs_mul, abs_of_pos hs] at habs
  have hkq : |(k : ℚ)| < 1 := (mul_lt_iff_lt_one_right hs).mp habs
  have hk1 : (k : ℚ) < 1 := (abs_lt.mp hkq).2
  have hk2 : (-1 : ℚ) < k := (abs_lt.mp hkq).1
  have hk1' : k < 1 := by exact_mod_cast hk1
  have hk2' : -1 < k := by exact_mod_cast hk2
  have hk0 : k = 0 := by omega
  rw [hk0] at hk
  simp at hk
  linarith

theorem localX_add_period (raw s : ℚ) (hs : 0 < s) :
    localX (raw + s) s = localX raw s := by
  obtain ⟨k1, hk1⟩ := localX_sub_int (raw + s) s
  obtain ⟨k2, hk2⟩ := localX_sub_int raw s
  obtain ⟨ha, hb⟩ := localX_nonneg_lt (raw + s) s hs
  obtain ⟨hc, hd⟩ := localX_nonneg_lt raw s hs
  refine localX_eq_of_period _ _ s hs (k2 - k1 + 1) ?_ ha hb hc hd
  rw [hk1, hk2]
  push_cast
  ring

theorem localX_sub_period (raw s : ℚ) (hs : 0 < s) :
    localX (raw - s) s = localX raw s := by
  have := localX_add_period (raw - s) s hs
  rw [sub_add_cancel] at this
  exact this.symm

theorem localX_wrapSnap (raw s : ℚ) (hs : 0 < s) :
    localX (wrapSnap raw s) s = localX raw s := by
  unfold wrapSnap
  rcases lt_or_le raw (s / 2) with h | h
  · rw [if_pos h]
    exact localX_add_period raw s hs
  · rw [if_neg (not_lt.mpr h)]
    rcases lt_or_le (s * (3 / 2)) raw with h2 | h2
    · rw [if_pos h2]
      exact localX_sub_period raw s hs
    · rw [if_neg (not_lt.mpr h2)]

end JsModFacts

section ParallaxFacts

theorem clamp_mem (p : ℚ) : 0 ≤ clamp p 0 1 ∧ clamp p 0 1 ≤ 1 := by
  unfold clamp
  constructor
  · exact le_max_left _ _
  · rcases le_total p 1 with h | h
    · rw [min_eq_right h]
      exact max_le (by norm_num) h
    · rw [min_eq_left h]
      norm_num

theorem clamp_mono (p1 p2 : ℚ) (h : p1 ≤ p2) : clamp p1 0 1 ≤ clamp p2 0 1 :=
  max_le_max (le_refl 0) (min_le_min (le_refl 1) h)

/-- Layer shift magnitudes fall as the parallax factor rises: the factor is
the fraction of motion the layer keeps, so factor 1 gives shift 0. -/
theorem parallaxShift_abs_antitone (lx p1 p2 : ℚ) (h : p1 ≤ p2) :
    |parallaxShift lx p2| ≤ |parallaxShift lx p1| := by
  unfold parallaxShift
  obtain ⟨h1a, h1b⟩ := clamp_mem p1
  obtain ⟨h2a, h2b⟩ := clamp_mem p2
  have hm := clamp_mono p1 p2 h
  simp only [abs_mul, abs_neg]
  have e1 : |1 - clamp p1 0 1| = 1 - clamp p1 0 1 := abs_of_nonneg (by linarith)
  have e2 : |1 - clamp p2 0 1| = 1 - clamp p2 0 1 := abs_of_nonneg (by linarith)
  rw [e1, e2]
  apply mul_le_mul_of_nonneg_left _ (abs_nonneg lx)
  linarith

end ParallaxFacts

section ClaimC1

/-- C1 counterexample: at localX = 100 the layer with the smaller factor
p1 = 0 shifts by 100 pixels while the layer with factor p2 = 1 does not
move, so `|shift(p1)| ≤ |shift(p2)|` fails even though p1 < p2 and
localX ≠ 0. -/
theorem C1_counterexample :
    (0 : ℚ) < 1 ∧ (100 : ℚ) ≠ 0 ∧
      ¬ |parallaxShift 100 0| ≤ |parallaxShift 100 1| := by
  refine ⟨by norm_num, by norm_num, ?_⟩
  unfold parallaxShift clamp
  norm_num

/-- C1 (amended): for layers with parallax factors p1 ≤ p2 the magnitude of
the horizontal shift `-localX * (1 - clamp(parallaxFactor, 0, 1))` of the
layer with the LARGER factor is at most that of the layer with the smaller
factor: shift magnitude is antitone in the factor (factor 1 shifts by 0,
factor 0 by the full localX). -/
theorem C1_theorem (lx p1 p2 : ℚ) (h : p1 ≤ p2) :
    |parallaxShift lx p2| ≤ |parallaxShift lx p1| :=
  parallaxShift_abs_antitone lx p1 p2 h

/-- C1 witness: the amended monotonicity at lx = 100, p1 = 1/4, p2 = 3/4. -/
theorem C1_theorem_witness :
    |parallaxShift 100 (3 / 4)| ≤ |parallaxShift 100 (1 / 4)| :=
  C1_theorem 100 (1 / 4) (3 / 4) (by norm_num)

end ClaimC1

section ClaimC2

/-- C2: after any sequence of scroll deltas applied to a freshly mounted
engine, `localX` lies in `[0, segmentWidth)`; applying the wrap snap
(`+segmentWidth` below `segmentWidth/2`, `-segmentWidth` above
`segmentWidth*1.5`) leaves `localX` — and hence every layer's parallax
shift — exactly unchanged. -/
theorem C2_theorem (s initOff : ℚ) (hs : 0 < s) (deltas : List ℚ) (p : ℚ) :
    (0 ≤ localX (engineRun s initOff deltas) s ∧
      localX (engineRun s initOff deltas) s < s) ∧
    localX (wrapSnap (engineRun s initOff deltas) s) s =
      localX (engineRun s initOff deltas) s ∧
    parallaxShift (localX (wrapSnap (engineRun s initOff deltas) s) s) p =
      parallaxShift (localX (engineRun s initOff deltas) s) p := by
  refine ⟨localX_nonneg_lt _ s hs, localX_wrapSnap _ s hs, ?_⟩
  rw [localX_wrapSnap _ s hs]

/-- C2 witness: segmentWidth 4096, initial offset 1024, one delta of -3073
(crossing the left wrap boundary), parallax factor 1/2. -/
theorem C2_theorem_witness :
    ((0 : ℚ) ≤ localX (engineRun 4096 1024 [-3073]) 4096 ∧
      localX (engineRun 4096 1024 [-3073]) 4096 < 4096) ∧
    localX (wrapSnap (engineRun 4096 1024 [-3073]) 4096) 4096 =
      localX (engineRun 4096 1024 [-3073]) 4096 ∧
    parallaxShift (localX (wrapSnap (engineRun 4096 1024 [-3073]) 4096) 4096)
        (1 / 2) =
      parallaxShift (localX (engineRun 4096 1024 [-3073]) 4096) (1 / 2) :=
  C2_theorem 4096 1024 (by norm_num) [-3073] (1 / 2)

end ClaimC2

section ClaimC3

/-- C3: the `offsetX` that `notifyViewport` emits is
`(scrollLeft - middleStart + localX) % segmentWidth`, which equals
`2 * localX mod segmentWidth`, NOT `localX`.  At the reachable mount state
of Scenario B (segmentWidth 4096, initialOffsetX 1024, so scrollLeft 5120)
the engine emits offsetX = 2048 while localX = 1024. -/
theorem C3_theorem :
    engineInit 4096 1024 = 5120 ∧
    localX 5120 4096 = 1024 ∧
    emittedOffsetX 5120 4096 = 2048 ∧
    emittedOffsetX 5120 4096 ≠ localX 5120 4096 := by
  refine ⟨?_, ?_, ?_, ?_⟩ <;>
    norm_num [engineInit, emittedOffsetX, localX, jsMod, jsTrunc]

end ClaimC3

/-- Signed 32-bit reinterpretation of a bit pattern, as JavaScript's
`ToInt32` produces for the operands of `<<` and `^`. -/
def toInt32 (n : Nat) : ℤ :=
  let m := n % U32
  if m < 2147483648 then (m : ℤ) else (m : ℤ) - (U32 : ℤ)

/-- The shift-add cascade `h + ((h<<1)+(h<<4)+(h<<7)+(h<<8)+(h<<24))` of
the hash body, each shift read back as a signed 32-bit value exactly as
JavaScript does before the floating-point additions. -/
def hashCascade (hb : Nat) : ℤ :=
  toInt32 hb + toInt32 (hb * 2 % U32) + toInt32 (hb * 16 % U32)
    + toInt32 (hb * 128 % U32) + toInt32 (hb * 256 % U32)
    + toInt32 (hb * 16777216 % U32)

/-- One step of `hash32` / `fnv1a32`: xor the code unit in, run the
shift-add cascade, then `>>> 0` (ToUint32, i.e. mod 2^32). -/
def hash32Step (h c : Nat) : Nat :=
  (hashCascade (Nat.xor h c) % (U32 : ℤ)).toNat

/-- The `hash32` of `StoryDotsOverlay.tsx`, folding `hash32Step` over the
UTF-16 code units of the input starting from the FNV offset basis
`0x811c9dc5`. -/
def hash32 (cs : List Nat) : Nat := cs.foldl hash32Step 0x811c9dc5

/-- The `fnv1a32` of `scripts/importStories.ts` — textually the same
algorithm as `hash32`, from the same offset basis. -/
def fnv1a32 (cs : List Nat) : Nat := cs.foldl hash32Step 0x811c9dc5

/-- UTF-16 code units of the string "hello world". -/
def helloWorldCodes : List Nat := [104, 101, 108, 108, 111, 32, 119, 111, 114, 108, 100]

/-- The LCG transition `x = (x * 1664525 + 1013904223) >>> 0` shared by
`rng01` (StoryDotsOverlay) and `makeRng` (GardenArc). -/
def lcgStep (x : Nat) : Nat := (x * 1664525 + 1013904223) % U32

/-- State of the LCG after n+1 steps from x (each call to the generator
advances the state once before producing a value). -/
def rngStream (x : Nat) : Nat → Nat
  | 0 => lcgStep x
  | n + 1 => lcgStep (rngStream x n)

/-- Initial state of `rng01`: `(seed ^ 0x9e3779b9) >>> 0`. -/
def rng01Init (seed : Nat) : Nat := Nat.xor (seed % U32) 0x9e3779b9 % U32

/-- The value of the n-th call (0-indexed) of `rng01(seed)`: the updated
state divided by `0xffffffff` (= 2^32 - 1, NOT 2^32). -/
def rng01Val (seed n : Nat) : ℚ := (rngStream (rng01Init seed) n : ℚ) / 4294967295

/-- Initial state of `makeRng`: `(seed >>> 0) || 1`. -/
def makeRngInit (seed : Nat) : Nat := if seed % U32 = 0 then 1 else seed % U32

/-- The value of the n-th call of `makeRng(seed)`:
`(s & 0xffffffff) / 0x100000000`.  JavaScript's `&` applies ToInt32 to its
operands, so an updated state at or above 2^31 reads back as a negative
signed 32-bit value before the division by 2^32. -/
def makeRngVal (seed n : Nat) : ℚ :=
  (toInt32 (rngStream (makeRngInit seed) n) : ℚ) / 4294967296

/-- A live `rng01` generator instance: the closure captures one mutable
32-bit state. -/
structure Rng01Gen where
  state : Nat

/-- Freshly construct a generator from a seed, as `rng01(seed)` does. -/
def mkRng01 (seed : Nat) : Rng01Gen := ⟨rng01Init seed⟩

/-- One call of the generator: advance the state, emit `state / 0xffffffff`. -/
def genNext (gen : Rng01Gen) : ℚ × Rng01Gen :=
  ((lcgStep gen.state : ℚ) / 4294967295, ⟨lcgStep gen.state⟩)

/-- The list of the first N values drawn from a generator instance. -/
def genRun : Rng01Gen → Nat → List ℚ
  | _, 0 => []
  | gen, n + 1 => (genNext gen).1 :: genRun (genNext gen).2 n

section RngFacts

theorem lcgStep_lt (x : Nat) : lcgStep x < U32 :=
  Nat.mod_lt _ (by norm_num [U32])

theorem rngStream_lt (x n : Nat) : rngStream x n < U32 := by
  cases n with
  | zero => exact lcgStep_lt x
  | succ n => exact lcgStep_lt _

theorem rng01Val_nonneg (seed n : Nat) : 0 ≤ rng01Val seed n := by
  unfold rng01Val
  positivity

theorem rng01Val_le_one (seed n : Nat) : rng01Val seed n ≤ 1 := by
  unfold rng01Val
  rw [div_le_one (by norm_num)]
  have h := rngStream_lt (rng01Init seed) n
  have : rngStream (rng01Init seed) n ≤ 4294967295 := by
    unfold U32 at h
    omega
  exact_mod_cast this

theorem toInt32_bounds (m : Nat) :
    -(2147483648 : ℤ) ≤ toInt32 m ∧ toInt32 m < 2147483648 := by
  simp only [toInt32, U32]
  by_cases hm : m % 4294967296 < 2147483648
  · rw [if_pos hm]
    omega
  · rw [if_neg hm]
    have h1 : m % 4294967296 < 4294967296 := Nat.mod_lt _ (by norm_num)
    omega

theorem makeRngVal_bounds (seed n : Nat) :
    -(1 / 2 : ℚ) ≤ makeRngVal seed n ∧ makeRngVal seed n < 1 / 2 := by
  obtain ⟨hlo, hhi⟩ := toInt32_bounds (rngStream (makeRngInit seed) n)
  have hlo' : (-(2147483648 : ℤ) : ℚ) ≤ (toInt32 (rngStream (makeRngInit seed) n) : ℚ) := by
    exact_mod_cast hlo
  have hhi' : ((toInt32 (rngStream (makeRngInit seed) n) : ℤ) : ℚ) < 2147483648 := by
    exact_mod_cast hhi
  unfold makeRngVal
  constructor
  · rw [le_div_iff₀ (by norm_num : (0 : ℚ) < 4294967296)]
    push_cast at hlo' ⊢
    linarith
  · rw [div_lt_iff₀ (by norm_num : (0 : ℚ) < 4294967296)]
    linarith

theorem rngStream_shift (x n : Nat) :
    rngStream (lcgStep x) n = rngStream x (n + 1) := by
  induction n with
  | zero => simp [rngStream]
  | succ n ih => simp only [rngStream, ih]

theorem genRun_eq_stream (N x : Nat) :
    genRun ⟨x⟩ N = (List.range N).map fun n => (rngStream x n : ℚ) / 4294967295 := by
  induction N generalizing x with
  | zero => rfl
  | succ N ih =>
    rw [List.range_succ_eq_map]
    simp only [genRun, genNext, List.map_cons, List.map_map]
    refine congrArg₂ List.cons rfl ?_
    rw [ih (lcgStep x)]
    apply List.map_congr_left
    intro n _
    simp only [Function.comp_apply]
    rw [rngStream_shift]

end RngFacts

section ClaimC4

/-- C4 counterexample: both constructors break the claimed [0, 1) bound.
`rng01` divides by `0xffffffff` = 2^32 - 1, so with the 32-bit seed
3099774617 its very first draw is exactly 1; and `makeRng`'s
`s & 0xffffffff` applies ToInt32, so with seed 1000 its first updated
state 2678429223 ≥ 2^31 reads back negative and the draw is below 0. -/
theorem C4_counterexample :
    (rng01Val 3099774617 0 = 1 ∧ ¬ rng01Val 3099774617 0 < 1) ∧
    makeRngVal 1000 0 < 0 := by
  have hx : rngStream (rng01Init 3099774617) 0 = 4294967295 := by decide
  have h : rng01Val 3099774617 0 = 1 := by
    unfold rng01Val
    rw [hx]
    norm_num
  refine ⟨⟨h, by rw [h]; exact lt_irrefl 1⟩, ?_⟩
  have hy : rngStream (makeRngInit 1000) 0 = 2678429223 := by decide
  unfold makeRngVal
  rw [hy]
  norm_num [toInt32, U32]

/-- C4 (amended): neither constructor stays in [0, 1).  The dot-placement
`rng01` satisfies only the closed bound [0, 1]: it divides by 2^32 - 1 and
attains 1 whenever its updated state is 0xffffffff.  The garden-arc
`makeRng` lies in [-1/2, 1/2): `s & 0xffffffff` reinterprets the updated
state as a signed 32-bit value, so states at or above 2^31 produce
negative draws. -/
theorem C4_theorem (seed n : Nat) :
    (0 ≤ rng01Val seed n ∧ rng01Val seed n ≤ 1) ∧
    (-(1 / 2) ≤ makeRngVal seed n ∧ makeRngVal seed n < 1 / 2) :=
  ⟨⟨rng01Val_nonneg seed n, rng01Val_le_one seed n⟩, makeRngVal_bounds seed n⟩

end ClaimC4

section ClaimC7

set_option maxRecDepth 10000 in
/-- C7: the seeding hash is pure and total from code-unit sequences
(including the empty one) into unsigned 32-bit range, repeated calls agree,
and hashing "hello world" twice yields the same uint32 (3582672807) in both
the overlay's `hash32` and the import script's `fnv1a32`. -/
theorem C7_theorem (cs : List Nat) :
    hash32 cs < 4294967296 ∧ fnv1a32 cs < 4294967296 ∧
    hash32 cs = hash32 cs ∧
    hash32 helloWorldCodes = hash32 helloWorldCodes ∧
    hash32 helloWorldCodes = 3582672807 ∧
    fnv1a32 helloWorldCodes = 3582672807 := by
  have hstep : ∀ h c, hash32Step h c < 4294967296 := by
    intro h c
    unfold hash32Step
    have hm : (0 : ℤ) < (U32 : ℤ) := by norm_num [U32]
    have h1 := Int.emod_nonneg (hashCascade (Nat.xor h c)) (ne_of_gt hm)
    have h2 := Int.emod_lt_of_pos (hashCascade (Nat.xor h c)) hm
    unfold U32 at h1 h2 ⊢
    omega
  have hfold : ∀ (l : List Nat) (h0 : Nat), h0 < 4294967296 →
      List.foldl hash32Step h0 l < 4294967296 := by
    intro l
    induction l with
    | nil => intro h0 hh; simpa using hh
    | cons c rest ih =>
      intro h0 _
      exact ih (hash32Step h0 c) (hstep h0 c)
  refine ⟨hfold cs _ (by norm_num), hfold cs _ (by norm_num), rfl, rfl, ?_, ?_⟩ <;> decide

end ClaimC7

section ClaimC8

/-- C8: two independently constructed `rng01` generator instances seeded
with the same 32-bit value produce identical sequences of draws, and each
instance's n-th draw is a pure function of (seed, n) alone — there is no
wall-clock, entropy, or cross-instance state in the stream. -/
theorem C8_theorem (k N : Nat) (g1 g2 : Rng01Gen)
    (h1 : g1 = mkRng01 k) (h2 : g2 = mkRng01 k) :
    genRun g1 N = genRun g2 N ∧
    genRun g1 N = (List.range N).map (rng01Val k) := by
  subst h1
  subst h2
  refine ⟨rfl, ?_⟩
  unfold mkRng01
  rw [genRun_eq_stream]
  rfl

/-- C8 witness: two fresh instances from seed 7 agree on their first three
draws, which also match the pure seed-indexed stream. -/
theorem C8_theorem_witness :
    genRun (mkRng01 7) 3 = genRun (mkRng01 7) 3 ∧
    genRun (mkRng01 7) 3 = (List.range 3).map (rng01Val 7) :=
  C8_theorem 7 3 (mkRng01 7) (mkRng01 7) rfl rfl

end ClaimC8

/-- The `SpriteSpec` shape of `InfiniteParallaxGarden.tsx`; optional fields
stay `Option` to mirror the `?:` members of the TypeScript type. -/
structure SpriteSpec where
  src : String
  width : ℚ
  height : ℚ
  anchorY : Option ℚ
  yOffset : Option ℚ
  scale : Option ℚ
  repeatX : Option Bool
  xPositions : Option (List ℚ)
deriving DecidableEq, Repr

/-- The `AssetInstanceConfig` of `garden/biomes.ts`: one asset inside a
group, with optional per-asset overrides. -/
structure AssetInstanceConfig where
  name : String
  index : Nat
  width : ℚ
  height : ℚ
  scaleMultiplier : Option ℚ
  yOffset : Option ℚ
  anchorY : Option ℚ
  opacityMultiplier : Option ℚ
  parallaxOffset : Option ℚ
  zIndexOffset : Option ℚ
  xPositions : Option (List ℚ)
deriving DecidableEq, Repr

/-- The `AssetGroupConfig` of `garden/biomes.ts`. -/
structure AssetGroupConfig where
  id : String
  groupFolder : String
  parallax : ℚ
  zIndex : ℚ
  baseY : ℚ
  opacity : Option ℚ
  anchorY : Option ℚ
  yOffset : Option ℚ
  scale : Option ℚ
  repeatX : Option Bool
  assets : List AssetInstanceConfig
deriving DecidableEq, Repr

/-- A `BiomeConfig`: an id plus its groups. -/
structure BiomeConfig where
  id : String
  groups : List AssetGroupConfig
deriving DecidableEq, Repr

/-- A layer as produced by `buildLayersFromBiome` (every field of the
bucket is populated, unlike the optional fields of the input `LayerConfig`
type). -/
structure LayerConfig where
  id : String
  parallax : ℚ
  zIndex : ℚ
  baseY : ℚ
  opacity : ℚ
  sprites : List SpriteSpec
deriving DecidableEq, Repr

/-- An in-progress bucket of `buildLayersFromBiome`: one entry of the
insertion-ordered `layerBuckets` map. -/
structure Bucket where
  id : String
  parallax : ℚ
  zIndex : ℚ
  baseY : ℚ
  opacity : ℚ
  sprites : List SpriteSpec
deriving DecidableEq, Repr

/-- The effective (parallax, zIndex, baseY, opacity) tuple of an asset:
group defaults plus per-asset deltas/multipliers, exactly the components
of the `${...}|${...}|${...}|${...}` bucket key. -/
def effTuple (g : AssetGroupConfig) (a : AssetInstanceConfig) : ℚ × ℚ × ℚ × ℚ :=
  (g.parallax + a.parallaxOffset.getD 0,
   g.zIndex + a.zIndexOffset.getD 0,
   g.baseY,
   g.opacity.getD 1 * a.opacityMultiplier.getD 1)

/-- The key tuple of a bucket. -/
def bucketTuple (bk : Bucket) : ℚ × ℚ × ℚ × ℚ :=
  (bk.parallax, bk.zIndex, bk.baseY, bk.opacity)

/-- The `SpriteSpec` built for one asset: path from folder/name/index,
anchor/offset/scale merged from group and asset, and `xPositions`
forwarded only when the group is not a repeat strip. -/
def mkSprite (g : AssetGroupConfig) (a : AssetInstanceConfig) : SpriteSpec :=
  { src := "/garden/" ++ g.groupFolder ++ "/" ++ a.name ++ "_" ++ toString a.index ++ ".png"
    width := a.width
    height := a.height
    anchorY := some (a.anchorY.getD (g.anchorY.getD 1))
    yOffset := some (g.yOffset.getD 0 + a.yOffset.getD 0)
    scale := some (g.scale.getD 1 * a.scaleMultiplier.getD 1)
    repeatX := some (g.repeatX.getD false)
    xPositions := if g.repeatX.getD false then none else some (a.xPositions.getD []) }

/-- Insert a sprite into the bucket list: append it to the first bucket
whose key tuple matches (JS `Map.get`), or append a fresh bucket at the
end (JS `Map.set` insertion order). -/
def insertSprite (sp : SpriteSpec) (t : ℚ × ℚ × ℚ × ℚ) (fid : String) :
    List Bucket → List Bucket
  | [] => [⟨fid, t.1, t.2.1, t.2.2.1, t.2.2.2, [sp]⟩]
  | bk :: rest =>
    if bucketTuple bk = t then
      { bk with sprites := bk.sprites ++ [sp] } :: rest
    else bk :: insertSprite sp t fid rest

/-- The per-group asset loop of `buildLayersFromBiome`: fold the group's
assets into the bucket list; a fresh bucket id is
`${groupId}-${layers.length}-${layerBuckets.size}` computed at creation
time. -/
def processGroupAux (g : AssetGroupConfig) (layersCount : Nat) :
    List AssetInstanceConfig → List Bucket → List Bucket
  | [], bks => bks
  | a :: rest, bks =>
    processGroupAux g layersCount rest
      (insertSprite (mkSprite g a) (effTuple g a)
        (g.id ++ "-" ++ toString layersCount ++ "-" ++ toString bks.length) bks)

/-- All buckets of one group, in map-insertion order. -/
def processGroup (layersCount : Nat) (g : AssetGroupConfig) : List Bucket :=
  processGroupAux g layersCount g.assets []

/-- Flush a finished bucket into a layer. -/
def bucketToLayer (bk : Bucket) : LayerConfig :=
  ⟨bk.id, bk.parallax, bk.zIndex, bk.baseY, bk.opacity, bk.sprites⟩

/-- The whole `buildLayersFromBiome`: per group, bucket the assets by
effective tuple and append the group's buckets to the flat layer list. -/
def buildLayersFromBiome (biome : BiomeConfig) : List LayerConfig :=
  biome.groups.foldl
    (fun layers g => layers ++ (processGroup layers.length g).map bucketToLayer) []

/-- First-occurrence deduplication: the insertion order of first-seen keys
of a JS `Map` built by repeated `set`. -/
def firstSeen {α : Type} [DecidableEq α] : List α → List α
  | [] => []
  | x :: xs => x :: (firstSeen xs).filter fun y => decide (y ≠ x)

/-- The sprites a tuple collects from an asset list: every matching asset,
in order. -/
def spritesFor (g : AssetGroupConfig) (t : ℚ × ℚ × ℚ × ℚ)
    (assets : List AssetInstanceConfig) : List SpriteSpec :=
  (assets.filter fun a => decide (effTuple g a = t)).map (mkSprite g)

/-- The concatenated sprite lists of all buckets with key tuple t. -/
def bucketSprites (t : ℚ × ℚ × ℚ × ℚ) : List Bucket → List SpriteSpec
  | [] => []
  | bk :: rest => (if bucketTuple bk = t then bk.sprites else []) ++ bucketSprites t rest

/-- Total number of sprites across a bucket list. -/
def bucketSpriteCount (bks : List Bucket) : Nat :=
  (bks.map fun bk => bk.sprites.length).sum

/-- Total number of sprites across built layers. -/
def totalSprites (ls : List LayerConfig) : Nat :=
  (ls.map fun l => l.sprites.length).sum

/-- Total number of assets across a biome's groups. -/
def totalAssets (b : BiomeConfig) : Nat :=
  (b.groups.map fun g => g.assets.length).sum

section BucketFacts

theorem bucketTuple_setSprites (bk : Bucket) (l : List SpriteSpec) :
    bucketTuple { bk with sprites := l } = bucketTuple bk := rfl

theorem mem_firstSeen {α : Type} [DecidableEq α] (L : List α) (x : α)
    (h : x ∈ firstSeen L) : x ∈ L := by
  induction L with
  | nil => simp [firstSeen] at h
  | cons y ys ih =>
    rw [firstSeen, List.mem_cons] at h
    rcases h with h | h
    · simp [h]
    · exact List.mem_cons_of_mem _ (ih (List.mem_of_mem_filter h))

theorem firstSeen_const {α : Type} [DecidableEq α] (L : List α) (t : α)
    (hne : L ≠ []) (hall : ∀ x ∈ L, x = t) : firstSeen L = [t] := by
  induction L with
  | nil => exact absurd rfl hne
  | cons y ys ih =>
    have hy : y = t := hall y (List.mem_cons_self y ys)
    subst hy
    rw [firstSeen]
    have hnil : (firstSeen ys).filter (fun z => decide (z ≠ y)) = [] := by
      rw [List.filter_eq_nil_iff]
      intro z hz
      have := hall z (List.mem_cons_of_mem _ (mem_firstSeen ys z hz))
      simp [this]
    rw [hnil]

theorem tuple_insertSprite (sp : SpriteSpec) (t : ℚ × ℚ × ℚ × ℚ) (fid : String)
    (bks : List Bucket) :
    (insertSprite sp t fid bks).map bucketTuple =
      if t ∈ bks.map bucketTuple then bks.map bucketTuple
      else bks.map bucketTuple ++ [t] := by
  induction bks with
  | nil => simp [insertSprite, bucketTuple]
  | cons bk rest ih =>
    by_cases h : bucketTuple bk = t
    · rw [insertSprite, if_pos h]
      have hmem : t ∈ (bk :: rest).map bucketTuple := by
        simp [← h]
      rw [if_pos hmem]
      simp only [List.map_cons]
      refine congrArg₂ List.cons ?_ rfl
      exact bucketTuple_setSprites bk _
    · rw [insertSprite, if_neg h]
      simp only [List.map_cons, ih]
      by_cases h2 : t ∈ rest.map bucketTuple
      · rw [if_pos h2, if_pos (by simp [h2])]
      · have hne : t ∉ bucketTuple bk :: rest.map bucketTuple := by
          rw [List.mem_cons]
          push_neg
          exact ⟨fun he => h he.symm, h2⟩
        rw [if_neg h2, if_neg hne]
        simp

theorem nodup_insertSprite (sp : SpriteSpec) (t : ℚ × ℚ × ℚ × ℚ) (fid : String)
    (bks : List Bucket) (h : (bks.map bucketTuple).Nodup) :
    ((insertSprite sp t fid bks).map bucketTuple).Nodup := by
  rw [tuple_insertSprite]
  by_cases hm : t ∈ bks.map bucketTuple
  · rwa [if_pos hm]
  · rw [if_neg hm]
    rw [List.nodup_append]
    refine ⟨h, List.nodup_singleton t, ?_⟩
    intro x hx hx'
    rw [List.mem_singleton] at hx'
    exact hm (hx' ▸ hx)

theorem bucketSprites_eq_nil (t : ℚ × ℚ × ℚ × ℚ) (bks : List Bucket)
    (h : t ∉ bks.map bucketTuple) : bucketSprites t bks = [] := by
  induction bks with
  | nil => rfl
  | cons bk rest ih =>
    simp only [List.map_cons, List.mem_cons] at h
    push_neg at h
    rw [bucketSprites, if_neg (fun he => h.1 he.symm), ih h.2]
    rfl

theorem bucketSprites_insertSprite (sp : SpriteSpec) (t t0 : ℚ × ℚ × ℚ × ℚ)
    (fid : String) (bks : List Bucket) (h : (bks.map bucketTuple).Nodup) :
    bucketSprites t (insertSprite sp t0 fid bks) =
      bucketSprites t bks ++ if t = t0 then [sp] else [] := by
  induction bks with
  | nil =>
    by_cases ht : t = t0
    · subst ht
      simp [insertSprite, bucketSprites, bucketTuple]
    · have ht' : ¬ t0 = t := fun he => ht he.symm
      simp [insertSprite, bucketSprites, bucketTuple, ht, ht']
  | cons bk rest ih =>
    simp only [List.map_cons, List.nodup_cons] at h
    obtain ⟨hhead, hrest⟩ := h
    by_cases h0 : bucketTuple bk = t0
    · rw [insertSprite, if_pos h0]
      by_cases ht : t = t0
      · subst ht
        have hnil : bucketSprites t rest = [] :=
          bucketSprites_eq_nil t rest (h0 ▸ hhead)
        rw [bucketSprites, bucketTuple_setSprites, if_pos h0, bucketSprites,
          if_pos h0, hnil]
        simp
      · have hne : bucketTuple bk ≠ t := fun he => ht (h0 ▸ he ▸ rfl)
        rw [bucketSprites, bucketTuple_setSprites, if_neg hne, bucketSprites,
          if_neg hne, if_neg ht]
        simp
    · rw [insertSprite, if_neg h0]
      rw [bucketSprites, bucketSprites, ih hrest]
      rw [List.append_assoc]

theorem bucketSprites_of_mem (bks : List Bucket)
    (h : (bks.map bucketTuple).Nodup) (bk : Bucket) (hbk : bk ∈ bks) :
    bucketSprites (bucketTuple bk) bks = bk.sprites := by
  induction bks with
  | nil => cases hbk
  | cons bk0 rest ih =>
    simp only [List.map_cons, List.nodup_cons] at h
    obtain ⟨hhead, hrest⟩ := h
    rcases List.mem_cons.mp hbk with he | hm
    · subst he
      rw [bucketSprites, if_pos rfl, bucketSprites_eq_nil _ rest hhead]
      simp
    · have hne : bucketTuple bk0 ≠ bucketTuple bk := by
        intro he
        exact hhead (he ▸ List.mem_map_of_mem bucketTuple hm)
      rw [bucketSprites, if_neg hne, ih hrest hm]
      rfl

end BucketFacts

section GroupFacts

theorem filter_filter_ne (B : List (ℚ × ℚ × ℚ × ℚ)) (t0 : ℚ × ℚ × ℚ × ℚ)
    (h : t0 ∈ B) (M : List (ℚ × ℚ × ℚ × ℚ)) :
    ((M.filter fun y => decide (y ≠ t0)).filter fun y => decide (y ∉ B)) =
      M.filter fun y => decide (y ∉ B) := by
  rw [List.filter_filter]
  apply List.filter_congr
  intro a _
  by_cases ha : a = t0
  · subst ha
    simp [h]
  · simp [ha]

theorem filter_not_mem_concat (B : List (ℚ × ℚ × ℚ × ℚ)) (t0 : ℚ × ℚ × ℚ × ℚ)
    (M : List (ℚ × ℚ × ℚ × ℚ)) :
    M.filter (fun y => decide (y ∉ B ++ [t0])) =
      (M.filter fun y => decide (y ≠ t0)).filter fun y => decide (y ∉ B) := by
  rw [List.filter_filter]
  apply List.filter_congr
  intro a _
  by_cases ha : a = t0 <;> by_cases hB : a ∈ B <;>
    simp [ha, hB, List.mem_append]

theorem tuple_processGroupAux (g : AssetGroupConfig) (n : Nat)
    (rest : List AssetInstanceConfig) (bks : List Bucket) :
    (processGroupAux g n rest bks).map bucketTuple =
      bks.map bucketTuple ++
        (firstSeen (rest.map (effTuple g))).filter
          fun t => decide (t ∉ bks.map bucketTuple) := by
  induction rest generalizing bks with
  | nil => simp [processGroupAux, firstSeen]
  | cons a rest ih =>
    rw [processGroupAux, ih]
    simp only [tuple_insertSprite]
    rw [List.map_cons, firstSeen]
    by_cases hm : effTuple g a ∈ bks.map bucketTuple
    · simp only [hm, if_true]
      rw [List.filter_cons]
      have hhead : decide (effTuple g a ∉ bks.map bucketTuple) = false := by
        simp [hm]
      rw [hhead]
      simp only [Bool.false_eq_true, if_false]
      refine congrArg (fun L => List.map bucketTuple bks ++ L) ?_
      exact (filter_filter_ne _ _ hm _).symm
    · simp only [hm, if_false]
      rw [List.filter_cons]
      have hhead : decide (effTuple g a ∉ bks.map bucketTuple) = true := by
        simp [hm]
      rw [hhead]
      simp only [if_true]
      rw [List.append_assoc, List.singleton_append]
      refine congrArg (fun L => List.map bucketTuple bks ++ (effTuple g a :: L)) ?_
      exact filter_not_mem_concat _ _ _

theorem nodup_processGroupAux (g : AssetGroupConfig) (n : Nat)
    (rest : List AssetInstanceConfig) (bks : List Bucket)
    (h : (bks.map bucketTuple).Nodup) :
    ((processGroupAux g n rest bks).map bucketTuple).Nodup := by
  induction rest generalizing bks with
  | nil => exact h
  | cons a rest ih => exact ih _ (nodup_insertSprite _ _ _ _ h)

theorem spritesFor_cons (g : AssetGroupConfig) (t : ℚ × ℚ × ℚ × ℚ)
    (a : AssetInstanceConfig) (rest : List AssetInstanceConfig) :
    spritesFor g t (a :: rest) =
      (if t = effTuple g a then [mkSprite g a] else []) ++ spritesFor g t rest := by
  by_cases he : effTuple g a = t
  · have hd : decide (effTuple g a = t) = true := by simp [he]
    rw [spritesFor, List.filter_cons, hd]
    simp only [if_true, List.map_cons]
    rw [if_pos he.symm, List.singleton_append]
    rfl
  · have hd : decide (effTuple g a = t) = false := by simp [he]
    have he' : ¬ t = effTuple g a := fun hx => he hx.symm
    rw [spritesFor, List.filter_cons, hd]
    simp only [Bool.false_eq_true, if_false]
    rw [if_neg he', List.nil_append]
    rfl

theorem bucketSprites_processGroupAux (g : AssetGroupConfig) (n : Nat)
    (t : ℚ × ℚ × ℚ × ℚ) (rest : List AssetInstanceConfig) (bks : List Bucket)
    (h : (bks.map bucketTuple).Nodup) :
    bucketSprites t (processGroupAux g n rest bks) =
      bucketSprites t bks ++ spritesFor g t rest := by
  induction rest generalizing bks with
  | nil => simp [processGroupAux, spritesFor]
  | cons a rest ih =>
    rw [processGroupAux, ih _ (nodup_insertSprite _ _ _ _ h)]
    rw [bucketSprites_insertSprite _ _ _ _ _ h]
    rw [spritesFor_cons, List.append_assoc]

theorem count_insertSprite (sp : SpriteSpec) (t : ℚ × ℚ × ℚ × ℚ) (fid : String)
    (bks : List Bucket) :
    bucketSpriteCount (insertSprite sp t fid bks) = bucketSpriteCount bks + 1 := by
  induction bks with
  | nil => simp [insertSprite, bucketSpriteCount]
  | cons bk rest ih =>
    by_cases h : bucketTuple bk = t
    · simp only [insertSprite, if_pos h, bucketSpriteCount, List.map_cons,
        List.sum_cons, List.length_append, List.length_singleton]
      omega
    · simp only [insertSprite, if_neg h, bucketSpriteCount, List.map_cons,
        List.sum_cons] at ih ⊢
      omega

theorem count_processGroupAux (g : AssetGroupConfig) (n : Nat)
    (rest : List AssetInstanceConfig) (bks : List Bucket) :
    bucketSpriteCount (processGroupAux g n rest bks) =
      bucketSpriteCount bks + rest.length := by
  induction rest generalizing bks with
  | nil => simp [processGroupAux]
  | cons a rest ih =>
    rw [processGroupAux, ih, count_insertSprite, List.length_cons]
    omega

theorem totalSprites_buildAux (gs : List AssetGroupConfig) (acc : List LayerConfig) :
    totalSprites (gs.foldl (fun layers g =>
        layers ++ (processGroup layers.length g).map bucketToLayer) acc) =
      totalSprites acc + (gs.map fun g => g.assets.length).sum := by
  induction gs generalizing acc with
  | nil => simp
  | cons g gs ih =>
    rw [List.foldl_cons, ih]
    have hone : totalSprites (acc ++ (processGroup acc.length g).map bucketToLayer) =
        totalSprites acc + g.assets.length := by
      rw [totalSprites, List.map_append, List.sum_append]
      have hmm : (((processGroup acc.length g).map bucketToLayer).map
            fun l => l.sprites.length) =
          (processGroup acc.length g).map fun bk => bk.sprites.length := by
        rw [List.map_map]
        rfl
      rw [hmm]
      have hc := count_processGroupAux g acc.length g.assets []
      rw [processGroup]
      rw [bucketSpriteCount] at hc
      rw [hc]
      simp [totalSprites, bucketSpriteCount]
    rw [hone, List.map_cons, List.sum_cons]
    omega

end GroupFacts

/-- The first thistle asset of the meadow biome's `flora_group_2_near`
group (no per-asset parallax/zIndex/opacity overrides). -/
def scenCAsset1 : AssetInstanceConfig :=
  { name := "thistle", index := 1, width := 520, height := 520,
    scaleMultiplier := none, yOffset := some 0, anchorY := none,
    opacityMultiplier := none, parallaxOffset := none, zIndexOffset := none,
    xPositions := some [300, 1300, 2500, 3660] }

/-- The second thistle asset of `flora_group_2_near`. -/
def scenCAsset2 : AssetInstanceConfig :=
  { name := "thistle", index := 2, width := 520, height := 750,
    scaleMultiplier := some (16 / 19), yOffset := some (-50), anchorY := none,
    opacityMultiplier := none, parallaxOffset := none, zIndexOffset := none,
    xPositions := some [350, 1320, 2520, 3650] }

/-- Scenario C: a group with two assets sharing parallax 0.9, zIndex 50,
baseY 1024, opacity 0.65 and no per-asset parallax/zIndex/opacity
overrides (the two thistle sprites of `flora_group_2_near`). -/
def scenCGroup : AssetGroupConfig :=
  { id := "flora_group_2_near", groupFolder := "flora_group_2",
    parallax := 9 / 10, zIndex := 50, baseY := 1024, opacity := some (13 / 20),
    anchorY := some (3 / 2), yOffset := none, scale := some (1 / 2),
    repeatX := none,
    assets := [scenCAsset1, scenCAsset2] }

/-- An asset that supplies explicit xPositions. -/
def malformedAsset : AssetInstanceConfig :=
  { name := "bg", index := 0, width := 2048, height := 720,
    scaleMultiplier := none, yOffset := none, anchorY := none,
    opacityMultiplier := none, parallaxOffset := none, zIndexOffset := none,
    xPositions := some [128, 1024] }

/-- A malformed group: tiling (`repeatX = true`) combined with an asset
that carries explicit positions. -/
def malformedGroup : AssetGroupConfig :=
  { id := "background", groupFolder := "background", parallax := 99 / 100,
    zIndex := -100, baseY := 1024, opacity := some 1, anchorY := some 1,
    yOffset := some 0, scale := some 2, repeatX := some true,
    assets := [malformedAsset] }

/-- A biome holding only the malformed group. -/
def malformedBiome : BiomeConfig := ⟨"meadow", [malformedGroup]⟩

section ClaimC5

/-- C5: per group, bucket key tuples are pairwise distinct and appear in
first-seen insertion order; every bucket holds exactly the sprites of the
assets whose effective tuple is the bucket's key, in asset order; and when
all assets of a group share one tuple the group yields exactly one layer
holding every asset's sprite. -/
theorem C5_theorem (n : Nat) (g : AssetGroupConfig) :
    ((processGroup n g).map bucketTuple).Nodup ∧
    (processGroup n g).map bucketTuple = firstSeen (g.assets.map (effTuple g)) ∧
    (∀ bk ∈ processGroup n g,
      bk.sprites = spritesFor g (bucketTuple bk) g.assets) ∧
    (∀ t : ℚ × ℚ × ℚ × ℚ, g.assets ≠ [] → (∀ a ∈ g.assets, effTuple g a = t) →
      (processGroup n g).map Bucket.sprites = [g.assets.map (mkSprite g)]) := by
  have hnod : ((processGroup n g).map bucketTuple).Nodup :=
    nodup_processGroupAux g n g.assets [] (by simp)
  have hmap : (processGroup n g).map bucketTuple =
      firstSeen (g.assets.map (effTuple g)) := by
    have h := tuple_processGroupAux g n g.assets []
    rw [processGroup]
    rw [h]
    simp
  have hmem : ∀ bk ∈ processGroup n g,
      bk.sprites = spritesFor g (bucketTuple bk) g.assets := by
    intro bk hbk
    have h1 := bucketSprites_of_mem (processGroup n g) hnod bk hbk
    have h2 := bucketSprites_processGroupAux g n (bucketTuple bk) g.assets []
      (by simp)
    rw [processGroup] at h1
    rw [h2] at h1
    simpa [bucketSprites] using h1.symm
  refine ⟨hnod, hmap, hmem, ?_⟩
  intro t hne hall
  have hfs : firstSeen (g.assets.map (effTuple g)) = [t] := by
    apply firstSeen_const
    · simpa using hne
    · intro x hx
      obtain ⟨a, ha, hax⟩ := List.mem_map.mp hx
      rw [← hax]
      exact hall a ha
  have hlen : (processGroup n g).length = 1 := by
    have := congrArg List.length (hmap.trans hfs)
    simpa using this
  obtain ⟨bk, hbk⟩ := List.length_eq_one.mp hlen
  have hmem' : bk ∈ processGroup n g := by
    rw [hbk]
    exact List.mem_singleton_self bk
  have htup : bucketTuple bk = t := by
    have := hmap.trans hfs
    rw [hbk] at this
    simpa using this
  have hspr : bk.sprites = g.assets.map (mkSprite g) := by
    rw [hmem bk hmem', htup, spritesFor]
    have hfil : g.assets.filter (fun a => decide (effTuple g a = t)) = g.assets := by
      rw [List.filter_eq_self]
      intro a ha
      simp [hall a ha]
    rw [hfil]
  rw [hbk, List.map_singleton, hspr]

/-- C5 witness: Scenario C — the two-thistle group produces exactly one
layer containing both sprites. -/
theorem C5_theorem_witness :
    (processGroup 0 scenCGroup).map Bucket.sprites =
      [scenCGroup.assets.map (mkSprite scenCGroup)] :=
  (C5_theorem 0 scenCGroup).2.2.2 (9 / 10, 50, 1024, 13 / 20)
    (by simp [scenCGroup])
    (by simp [scenCGroup, scenCAsset1, scenCAsset2, effTuple])

end ClaimC5

section ClaimC6

/-- C6 counterexample: the malformed tiling-plus-positions biome is NOT
rejected — the builder produces one layer and silently discards the
asset's explicit xPositions. -/
theorem C6_counterexample :
    (buildLayersFromBiome malformedBiome).length = 1 ∧
    (buildLayersFromBiome malformedBiome).map
        (fun l => l.sprites.map fun sp => sp.xPositions) = [[none]] := by
  constructor <;> decide

/-- C6 (amended): the builder never fails on contradictory tiling +
explicit positions; for any group with `repeatX` true, every sprite it
emits is a repeat strip whose `xPositions` have been silently dropped
(`undefined`), and layers are produced normally. -/
theorem C6_theorem (n : Nat) (g : AssetGroupConfig)
    (hrep : g.repeatX.getD false = true) (bk : Bucket)
    (hbk : bk ∈ processGroup n g) (sp : SpriteSpec) (hsp : sp ∈ bk.sprites) :
    sp.xPositions = none ∧ sp.repeatX = some true := by
  have hnod : ((processGroup n g).map bucketTuple).Nodup :=
    nodup_processGroupAux g n g.assets [] (by simp)
  have h1 := bucketSprites_of_mem (processGroup n g) hnod bk hbk
  have h2 := bucketSprites_processGroupAux g n (bucketTuple bk) g.assets []
    (by simp)
  rw [processGroup] at h1
  rw [h2] at h1
  have hbks : bk.sprites = spritesFor g (bucketTuple bk) g.assets := by
    simpa [bucketSprites] using h1.symm
  rw [hbks, spritesFor] at hsp
  obtain ⟨a, _, hae⟩ := List.mem_map.mp hsp
  rw [← hae]
  constructor
  · simp [mkSprite, hrep]
  · simp [mkSprite, hrep]

/-- C6 witness: in the malformed biome's group, the emitted sprite has no
xPositions and is marked as a repeat strip. -/
theorem C6_theorem_witness :
    (mkSprite malformedGroup malformedAsset).xPositions = none ∧
    (mkSprite malformedGroup malformedAsset).repeatX = some true :=
  C6_theorem 0 malformedGroup rfl
    ⟨malformedGroup.id ++ "-" ++ toString (0 : Nat) ++ "-" ++ toString (0 : Nat),
      (effTuple malformedGroup malformedAsset).1,
      (effTuple malformedGroup malformedAsset).2.1,
      (effTuple malformedGroup malformedAsset).2.2.1,
      (effTuple malformedGroup malformedAsset).2.2.2,
      [mkSprite malformedGroup malformedAsset]⟩
    (List.mem_singleton_self _) (mkSprite malformedGroup malformedAsset)
    (List.mem_singleton_self _)

end ClaimC6

section ClaimC10

/-- C10: sprite conservation — the number of sprites summed over all built
layers equals the number of assets summed over all groups; no asset is
dropped or duplicated by the bucketing. -/
theorem C10_theorem (biome : BiomeConfig) :
    totalSprites (buildLayersFromBiome biome) = totalAssets biome := by
  rw [buildLayersFromBiome, totalAssets, totalSprites_buildAux]
  simp [totalSprites]

end ClaimC10

/-- Math.floor of a rational, back into ℚ. -/
def jsFloor (q : ℚ) : ℚ := (⌊q⌋ : ℤ)

/-- Math.round of a rational: floor(x + 1/2). -/
def jsRound (q : ℚ) : ℚ := (⌊q + 1 / 2⌋ : ℤ)

/-- The effective viewport height of the overlay:
`Math.max(300, viewport.viewportH || 700)` — 0 is falsy. -/
def dotVh (viewportH : ℚ) : ℚ := max 300 (if viewportH = 0 then 700 else viewportH)

/-- Top padding of the dot band: `Math.max(40, Math.round(vh * 0.08))`. -/
def dotTopPad (vh : ℚ) : ℚ := max 40 (jsRound (vh * (8 / 100)))

/-- Usable band height: `Math.max(120, Math.round(vh * 0.55))`. -/
def dotUsableH (vh : ℚ) : ℚ := max 120 (jsRound (vh * (55 / 100)))

/-- A placed story dot: x within one segment, y, radius, and its
y-interpolated parallax factor. -/
structure Dot where
  x : ℚ
  y : ℚ
  r : ℚ
  parallax : ℚ
deriving DecidableEq, Repr

/-- One dot of the parallax-aware `StoryDotsOverlay`: seed = hash32 of the
story id's code units, three sequential `rng01` draws for x, y and radius,
and `parallax = pMin + t * (pMax - pMin)` with
`t = (y - topPad) / Math.max(1, usableH)`. -/
def mkDot (storyId : List Nat) (segmentWidth viewportH pMin pMax : ℚ) : Dot :=
  let seed := hash32 storyId
  let vh := dotVh viewportH
  let topPad := dotTopPad vh
  let usableH := dotUsableH vh
  let x := jsFloor (rng01Val seed 0 * segmentWidth)
  let y := topPad + jsFloor (rng01Val seed 1 * usableH)
  let r := 3 + jsFloor (rng01Val seed 2 * 6)
  let t := (y - topPad) / max 1 usableH
  { x := x, y := y, r := r, parallax := pMin + t * (pMax - pMin) }

/-- The dots of a story list, one per story in order. -/
def mkDots (storyIds : List (List Nat)) (segmentWidth viewportH pMin pMax : ℚ) :
    List Dot :=
  storyIds.map fun sid => mkDot sid segmentWidth viewportH pMin pMax

section DotFacts

theorem dotUsableH_ge (vh : ℚ) : (120 : ℚ) ≤ dotUsableH vh := le_max_left _ _

theorem mkDot_parallax_bounds (sid : List Nat) (segW viewportH pMin pMax : ℚ)
    (h : pMin ≤ pMax) :
    pMin ≤ (mkDot sid segW viewportH pMin pMax).parallax ∧
    (mkDot sid segW viewportH pMin pMax).parallax ≤ pMax := by
  have hu : (120 : ℚ) ≤ dotUsableH (dotVh viewportH) := dotUsableH_ge _
  have hu1 : (1 : ℚ) ≤ dotUsableH (dotVh viewportH) := by linarith
  have hmax : max 1 (dotUsableH (dotVh viewportH)) = dotUsableH (dotVh viewportH) :=
    max_eq_right hu1
  have hv0 := rng01Val_nonneg (hash32 sid) 1
  have hv1 := rng01Val_le_one (hash32 sid) 1
  have hfl0 : (0 : ℚ) ≤
      jsFloor (rng01Val (hash32 sid) 1 * dotUsableH (dotVh viewportH)) := by
    unfold jsFloor
    have hnn : (0 : ℚ) ≤ rng01Val (hash32 sid) 1 * dotUsableH (dotVh viewportH) :=
      mul_nonneg hv0 (by linarith)
    exact_mod_cast Int.floor_nonneg.mpr hnn
  have hfl1 : jsFloor (rng01Val (hash32 sid) 1 * dotUsableH (dotVh viewportH)) ≤
      dotUsableH (dotVh viewportH) := by
    unfold jsFloor
    have h1 : (⌊rng01Val (hash32 sid) 1 * dotUsableH (dotVh viewportH)⌋ : ℚ) ≤
        rng01Val (hash32 sid) 1 * dotUsableH (dotVh viewportH) := Int.floor_le _
    nlinarith
  have hshape : (mkDot sid segW viewportH pMin pMax).parallax =
      pMin + (jsFloor (rng01Val (hash32 sid) 1 * dotUsableH (dotVh viewportH)) /
        dotUsableH (dotVh viewportH)) * (pMax - pMin) := by
    show pMin + ((dotTopPad (dotVh viewportH) +
        jsFloor (rng01Val (hash32 sid) 1 * dotUsableH (dotVh viewportH)) -
        dotTopPad (dotVh viewportH)) / max 1 (dotUsableH (dotVh viewportH))) *
          (pMax - pMin) = _
    rw [add_sub_cancel_left, hmax]
  rw [hshape]
  have ht0 : 0 ≤ jsFloor (rng01Val (hash32 sid) 1 * dotUsableH (dotVh viewportH)) /
      dotUsableH (dotVh viewportH) := div_nonneg hfl0 (by linarith)
  have ht1 : jsFloor (rng01Val (hash32 sid) 1 * dotUsableH (dotVh viewportH)) /
      dotUsableH (dotVh viewportH) ≤ 1 := (div_le_one (by linarith)).mpr hfl1
  constructor
  · nlinarith [mul_nonneg ht0 (sub_nonneg.mpr h)]
  · nlinarith [mul_le_of_le_one_left (sub_nonneg.mpr h) ht1]

end DotFacts

section ClaimC9

/-- C9: every dot the overlay builds has parallax factor in
[pMin, pMax] (given pMin ≤ pMax), and the factor is exactly the linear
interpolation of the dot's vertical position inside the usable band. -/
theorem C9_theorem (storyIds : List (List Nat)) (segW viewportH pMin pMax : ℚ)
    (h : pMin ≤ pMax) (d : Dot)
    (hd : d ∈ mkDots storyIds segW viewportH pMin pMax) :
    pMin ≤ d.parallax ∧ d.parallax ≤ pMax ∧
    d.parallax = pMin + (d.y - dotTopPad (dotVh viewportH)) /
      max 1 (dotUsableH (dotVh viewportH)) * (pMax - pMin) := by
  obtain ⟨sid, _, hmk⟩ := List.mem_map.mp hd
  obtain ⟨h1, h2⟩ := mkDot_parallax_bounds sid segW viewportH pMin pMax h
  rw [← hmk]
  exact ⟨h1, h2, rfl⟩

/-- C9 witness: the single dot of a one-story list at segment width 4096,
viewport height 700 and the band [0, 1]. -/
theorem C9_theorem_witness :
    (0 : ℚ) ≤ (mkDot helloWorldCodes 4096 700 0 1).parallax ∧
    (mkDot helloWorldCodes 4096 700 0 1).parallax ≤ 1 ∧
    (mkDot helloWorldCodes 4096 700 0 1).parallax =
      0 + ((mkDot helloWorldCodes 4096 700 0 1).y - dotTopPad (dotVh 700)) /
        max 1 (dotUsableH (dotVh 700)) * (1 - 0) :=
  C9_theorem [helloWorldCodes] 4096 700 0 1 zero_le_one
    (mkDot helloWorldCodes 4096 700 0 1) (List.mem_singleton_self _)

end ClaimC9

end FFM
